import Mathlib

/-!
# Verification of the Limitless → Notion sync service (src/index.js)

Shallow embedding of the polling-and-synchronization loop of the repository:
the watermark store (`loadLastSeenTime` / `saveLastSeenTime`), the upstream
response normalization inside `fetchStarredLifelogs`, the schema cache
(`fetchNotionDatabaseSchema`), the fallback field mapping inside
`createNotionPage`, the sync cycle (`processNewLifelogs`) and the scheduler
(`startPolling`).

Modelling conventions:
* Timestamps are `Nat`.  The JavaScript code compares ISO-8601 timestamp
  strings with `>`, which on such strings is the chronological order, so any
  linear order is a faithful model of the comparison.
* A JavaScript value that may be absent or falsy (`x || y` chains, `if (x)`)
  is modelled as `Option _`, with `none` for absent/falsy.
* Asynchronous I/O with the outside world (the destination write, the live
  schema fetch, the upstream fetch) is passed in as an explicit outcome
  parameter; fallible steps return `Except`.
* Process-global mutable flags (the one-time warning markers) are threaded
  through as explicit `Bool` state.
-/

namespace LimitlessNotion

/-! ## JSON values (for the upstream response normalization) -/

/-- A JSON value, as delivered by `response.json()` in `fetchStarredLifelogs`
(src/index.js:92).  `null`, booleans, numbers and strings are the non-object
shapes; arrays and objects are the object shapes (`Array.isArray` separates
the two). -/
inductive Json where
  | null : Json
  | bool (b : Bool) : Json
  | num (n : Int) : Json
  | str (s : String) : Json
  | arr (xs : List Json) : Json
  | obj (fields : List (String × Json)) : Json

/-- JavaScript property access `j[k]` on a parsed JSON value: the first field
with the given key on an object, `undefined` (here `none`) otherwise. -/
def getField : Json → String → Option Json
  | .obj fields, k => (fields.find? (fun p => p.1 == k)).map Prod.snd
  | _, _ => none

/-- The `Array.isArray` refinement: the element list when the value is an array. -/
def asArr : Json → Option (List Json)
  | .arr xs => some xs
  | _ => none

/-- Whether the value reaches the `typeof data === 'object'` branch of
`fetchStarredLifelogs` (src/index.js:108-111): arrays take the first branch,
truthy objects the second, everything else the final `else`. -/
def isObjOrArr : Json → Bool
  | .arr _ => true
  | .obj _ => true
  | _ => false

/-- The ordered shape-matcher chain of `fetchStarredLifelogs`
(src/index.js:113-126): `data.data.lifelogs`, then `data.lifelogs`, then
`data.data`, then `data.results`, then `data.items`, each required to be an
array.  The JavaScript truthiness guards (`data.data && ...`) are subsumed
here: property access on a non-object yields `none`, and a value that passes
`Array.isArray` is always truthy. -/
def recognizedShape (data : Json) : Option (List Json) :=
  (((getField data "data").bind (fun d => getField d "lifelogs")).bind asArr).orElse
    (fun _ => ((getField data "lifelogs").bind asArr).orElse
      (fun _ => ((getField data "data").bind asArr).orElse
        (fun _ => ((getField data "results").bind asArr).orElse
          (fun _ => (getField data "items").bind asArr))))

/-- Outcome of the normalization step of `fetchStarredLifelogs`
(src/index.js:105-144): the normalized record list, the updated process-wide
`global._limitlessApiWarningShown` flag, and whether this call emitted a
`console.warn` diagnostic. -/
structure FetchNorm where
  lifelogs : List Json
  warnShown : Bool
  warned : Bool

/-- The normalization of one upstream response body (src/index.js:105-142).
`warnShown` is the value of `global._limitlessApiWarningShown` before the
call.  A bare array is returned as is; an object is run through the
shape-matcher chain, an unrecognized object warns once per process (guarded
by the global flag, src/index.js:129-136); a non-object response warns
unconditionally (src/index.js:139-141). -/
def normalizeLifelogs (warnShown : Bool) (data : Json) : FetchNorm :=
  match data with
  | .arr xs => ⟨xs, warnShown, false⟩
  | .obj fields =>
      match recognizedShape (.obj fields) with
      | some xs => ⟨xs, warnShown, false⟩
      | none => ⟨[], true, !warnShown⟩
  | _ => ⟨[], warnShown, true⟩

/-! ## Watermark store (`loadLastSeenTime` / `saveLastSeenTime`) -/

/-- The persisted watermark file `.last-seen-state.json`, as the storage layer
presents it to `loadLastSeenTime` (src/index.js:46-60):
* `missing`: `fs.readFile` fails with `ENOENT`;
* `unreadable`: `fs.readFile` fails with any other I/O error;
* `malformed`: the file reads but `JSON.parse` throws;
* `parsed t?`: the file parses; `t? = none` models an absent or falsy
  `lastSeenTime` field, `t? = some t` a truthy one. -/
inductive StateFile where
  | missing : StateFile
  | unreadable : StateFile
  | malformed : StateFile
  | parsed (lastSeenTime : Option Nat) : StateFile
  deriving Repr, DecidableEq

/-- Errors `loadLastSeenTime` lets propagate (src/index.js:58). -/
inductive LoadError where
  | ioError : LoadError
  | parseError : LoadError
  deriving Repr, DecidableEq

/-- The save operation `saveLastSeenTime(timestamp)` (src/index.js:65-68): overwrites the state
file with `{ lastSeenTime: timestamp }`. -/
def saveLastSeenTime (timestamp : Nat) (_ : StateFile) : StateFile :=
  .parsed (some timestamp)

/-- The load operation `loadLastSeenTime()` (src/index.js:46-60), given the current wall-clock
time `now` (`new Date().toISOString()`).  Returns the loaded watermark and the
state file after the call:
* parsed file with truthy `lastSeenTime`: return it (src/index.js:50);
* parsed file with absent/falsy `lastSeenTime`: `state.lastSeenTime || now`
  returns `now`, and nothing is written back (src/index.js:50);
* `ENOENT`: save `now` and return it (src/index.js:52-56);
* any other read or parse error: rethrown (src/index.js:58). -/
def loadLastSeenTime (st : StateFile) (now : Nat) :
    Except LoadError (Nat × StateFile) :=
  match st with
  | .missing => .ok (now, saveLastSeenTime now st)
  | .unreadable => .error .ioError
  | .malformed => .error .parseError
  | .parsed (some t) => .ok (t, st)
  | .parsed none => .ok (now, st)

/-! ## Schema cache (`fetchNotionDatabaseSchema`) -/

/-- A Notion property type, as read from the database schema
(`prop.type` in src/index.js:208-226 and the fallback lookup in
src/index.js:311-313). -/
inductive PropType where
  | title | rich_text | date | select | multi_select | status
  | number | checkbox | url | email | phone_number
  deriving Repr, DecidableEq

/-- The destination schema: `database.properties` as an ordered
name → descriptor mapping (`Object.keys` order). -/
abbrev Schema := List (String × PropType)

/-- The schema cache file `.notion-schema-cache.json` as the cache-read block
of `fetchNotionDatabaseSchema` sees it (src/index.js:157-167): `none` when
the file is absent, unreadable or unparsable (the inner `catch` swallows all
of these identically), `some (schema, ts)` when it parses. -/
abbrev SchemaCache := Option (Schema × Nat)

/-- Outcome of one `fetchNotionDatabaseSchema()` call (src/index.js:154-197):
the returned schema or the propagated error, whether a live network fetch was
performed, and the cache file after the call. -/
structure SchemaFetchResult where
  result : Except Unit Schema
  fetchedLive : Bool
  cacheAfter : SchemaCache

/-- The schema getter `fetchNotionDatabaseSchema()` (src/index.js:154-197), given the cache
file, the current time (`Date.now()`) and the outcome `live` that the
network fetch would produce.  A cached snapshot strictly younger than
3600000 ms is returned without any fetch (src/index.js:158-164); otherwise
the live fetch runs, a success is persisted with a fresh timestamp and
returned (src/index.js:169-192), and a failure propagates (src/index.js:195)
leaving the cache file as it was. -/
def fetchNotionDatabaseSchema (cache : SchemaCache) (now : Nat)
    (live : Except Unit Schema) : SchemaFetchResult :=
  match cache with
  | some (schema, ts) =>
      if now - ts < 3600000 then ⟨.ok schema, false, cache⟩
      else
        match live with
        | .ok s => ⟨.ok s, true, some (s, now)⟩
        | .error e => ⟨.error e, true, cache⟩
  | none =>
      match live with
      | .ok s => ⟨.ok s, true, some (s, now)⟩
      | .error e => ⟨.error e, true, none⟩

/-! ## Source records and the fallback field mapping (`createNotionPage`) -/

/-- One lifelog record, with the fields the sync engine reads.  `none` models
an absent or falsy field (the code only ever consumes these fields through
`||` chains and truthiness tests). -/
structure Lifelog where
  id : Option String
  title : Option String
  markdown : Option String
  text : Option String
  updatedAt : Option Nat
  endTime : Option Nat
  startTime : Option Nat
  deriving Repr, DecidableEq

/-- The effective timestamp of a record:
`lifelog.updatedAt || lifelog.endTime || lifelog.startTime`
(src/index.js:421). -/
def effectiveTimestamp (l : Lifelog) : Option Nat :=
  (l.updatedAt.orElse (fun _ => l.endTime)).orElse (fun _ => l.startTime)

/-- A Notion property value as built by the fallback mapping: a title payload
(`{title:[{text:{content}}]}`) or a rich-text payload
(`{rich_text:[{text:{content}}]}`). -/
inductive PropValue where
  | titleVal (content : String) : PropValue
  | richTextVal (content : String) : PropValue
  deriving Repr, DecidableEq

/-- The property set sent to the destination write: an ordered JavaScript
object, name → value. -/
abbrev Props := List (String × PropValue)

/-- JavaScript object assignment `props[k] = v`: overwrite an existing key in
place, otherwise append. -/
def setProp (props : Props) (k : String) (v : PropValue) : Props :=
  if props.any (fun p => p.1 == k) then
    props.map (fun p => if p.1 == k then (k, v) else p)
  else props ++ [(k, v)]

/-- The body content of a record as the fallback reads it:
`lifelog.markdown || lifelog.text` (src/index.js:310, 319). -/
def bodyContent (l : Lifelog) : Option String :=
  l.markdown.orElse (fun _ => l.text)

/-- The fallback mapping of `createNotionPage` (src/index.js:299-325), used
when `generatePropertyMapping` throws: start from a property literally named
`"Title"` holding `lifelog.title || 'Untitled'` as a title value; when the
record has body content, find the first schema property whose type is
`rich_text` and assign the body content to it. -/
def fallbackProperties (l : Lifelog) (schema : Schema) : Props :=
  let base : Props := [("Title", .titleVal (l.title.getD "Untitled"))]
  match bodyContent l with
  | none => base
  | some body =>
      match schema.find? (fun p => p.2 == PropType.rich_text) with
      | some (k, _) => setProp base k (.richTextVal body)
      | none => base

/-- The property-set computation of `createNotionPage`
(src/index.js:292-326): the primary (AI) mapping when it succeeds, the
fallback mapping when it throws for any reason.  `primary` is the outcome
that `generatePropertyMapping` would produce for this record and schema. -/
def createNotionPageProperties (primary : Except String Props)
    (l : Lifelog) (schema : Schema) : Props :=
  match primary with
  | .ok props => props
  | .error _ => fallbackProperties l schema

/-! ## The sync cycle (`processNewLifelogs`) -/

/-- The per-record loop of `processNewLifelogs` (src/index.js:409-429).  Each
record comes paired with the outcome of its `createNotionPage` write (`true`
when the destination write succeeds).  The accumulators are the loop
variables `maxTimestamp` and `processedCount` (src/index.js:406-407): on a
successful write the count increments and the record's effective timestamp,
when present and strictly greater, replaces `maxTimestamp`
(src/index.js:421-424); a failed record is logged and skipped
(src/index.js:425-428), touching neither accumulator.  Returns the final
`(maxTimestamp, processedCount)`. -/
def processLoop (records : List (Lifelog × Bool)) (maxT : Nat) (count : Nat) :
    Nat × Nat :=
  match records with
  | [] => (maxT, count)
  | (l, ok) :: rest =>
      if ok then
        let maxT' :=
          match effectiveTimestamp l with
          | some t => if maxT < t then t else maxT
          | none => maxT
        processLoop rest maxT' (count + 1)
      else processLoop rest maxT count

/-- The effective timestamps of the successfully written records of a batch,
in order: the values eligible to advance the watermark. -/
def successTimestamps (records : List (Lifelog × Bool)) : List Nat :=
  (records.filter (fun p => p.2)).filterMap (fun p => effectiveTimestamp p.1)

/-- Outcome of one `processNewLifelogs` call (src/index.js:379-441):
* `loaded`: the watermark `loadLastSeenTime` returned (`none` when the load
  itself threw and was swallowed by the outer catch, src/index.js:438-440);
* `saved`: the timestamp passed to `saveLastSeenTime` (src/index.js:432-433),
  `none` when that call never ran;
* `warned`: whether the zero-processed warning fired (src/index.js:435-436);
* `finalState`: the watermark file after the cycle;
* `attempted`: the records submitted to `createNotionPage`, in order. -/
structure CycleResult where
  loaded : Option Nat
  saved : Option Nat
  warned : Bool
  finalState : StateFile
  attempted : List Lifelog
  deriving Repr, DecidableEq

/-- One polling cycle, `processNewLifelogs(databaseSchema)`
(src/index.js:379-441).  `st` is the watermark file before the cycle, `now`
the wall clock, and `fetchResult` the outcome of `fetchStarredLifelogs`: an
error when the fetch throws (network failure, non-success status or parse
failure), otherwise the normalized record batch paired with each record's
destination-write outcome.  The body mirrors the source: load the watermark
(errors are caught by the outer catch and the cycle returns,
src/index.js:438-440); a fetch error logs and returns early without touching
the watermark (src/index.js:385-391); an empty batch is a no-op
(src/index.js:399-402); otherwise every record is attempted in order by
`processLoop`, and the watermark is saved exactly when at least one record
was processed (src/index.js:432-437), a warning firing instead when none
was. -/
def processNewLifelogs (st : StateFile) (now : Nat)
    (fetchResult : Except Unit (List (Lifelog × Bool))) : CycleResult :=
  match loadLastSeenTime st now with
  | .error _ => ⟨none, none, false, st, []⟩
  | .ok (lastSeenTime, st1) =>
      match fetchResult with
      | .error _ => ⟨some lastSeenTime, none, false, st1, []⟩
      | .ok records =>
          if records.isEmpty then ⟨some lastSeenTime, none, false, st1, []⟩
          else
            let r := processLoop records lastSeenTime 0
            if 0 < r.2 then
              ⟨some lastSeenTime, some r.1, false, saveLastSeenTime r.1 st1,
                records.map Prod.fst⟩
            else
              ⟨some lastSeenTime, none, true, st1, records.map Prod.fst⟩

/-- The watermark value recorded in a state file, when one is. -/
def stateWatermark : StateFile → Option Nat
  | .parsed (some t) => some t
  | _ => none

/-- A sequence of polling cycles, as the scheduler drives them
(src/index.js:464-469): each cycle runs at some wall-clock time against some
fetch outcome, and the watermark file it leaves behind is the one the next
cycle loads. -/
def runCycles (st : StateFile)
    (cycles : List (Nat × Except Unit (List (Lifelog × Bool)))) : StateFile :=
  match cycles with
  | [] => st
  | (now, fr) :: rest => runCycles (processNewLifelogs st now fr).finalState rest

/-! ## The scheduler (`startPolling`) -/

/-- Observable trace of one `startPolling()` run (src/index.js:446-481):
how many times `fetchNotionDatabaseSchema` was invoked, whether the process
exited at startup (schema fetch failure, src/index.js:457-461), and the
schema value passed to each `processNewLifelogs` invocation, in order. -/
structure PollRun where
  schemaFetchCount : Nat
  exitedAtStartup : Bool
  cycleSchemas : List Schema
  deriving Repr, DecidableEq

/-- The scheduler entry `startPolling()` (src/index.js:446-481), observed for the first
`1 + numCycles` cycle invocations: the schema is fetched once at startup
(src/index.js:455); on failure the process exits (src/index.js:457-461); on
success the immediate first cycle (src/index.js:464) and every interval
cycle (src/index.js:467-469) close over the same `databaseSchema` variable,
so each invocation receives the startup snapshot. -/
def startPolling (cache : SchemaCache) (startNow : Nat)
    (live : Except Unit Schema) (numCycles : Nat) : PollRun :=
  match (fetchNotionDatabaseSchema cache startNow live).result with
  | .error _ => ⟨1, true, []⟩
  | .ok databaseSchema => ⟨1, false, List.replicate (1 + numCycles) databaseSchema⟩

/-! ## Helper lemmas about the per-record loop -/

theorem successTimestamps_cons (l : Lifelog) (ok : Bool)
    (rest : List (Lifelog × Bool)) :
    successTimestamps ((l, ok) :: rest) =
      if ok then
        match effectiveTimestamp l with
        | some t => t :: successTimestamps rest
        | none => successTimestamps rest
      else successTimestamps rest := by
  cases ok with
  | false => simp [successTimestamps, List.filter_cons]
  | true =>
      cases h : effectiveTimestamp l <;>
        simp [successTimestamps, List.filter_cons, List.filterMap_cons, h]

theorem successTimestamps_append (a b : List (Lifelog × Bool)) :
    successTimestamps (a ++ b) = successTimestamps a ++ successTimestamps b := by
  simp [successTimestamps, List.filter_append, List.filterMap_append]

theorem le_foldl_max (s : List Nat) : ∀ m : Nat, m ≤ s.foldl max m := by
  induction s with
  | nil => exact fun m => le_refl m
  | cons a s ih =>
      exact fun m => le_trans (Nat.le_max_left m a) (ih (max m a))

/-- The final `maxTimestamp` of the loop is the maximum of its initial value
and the effective timestamps of the successfully written records. -/
theorem processLoop_fst (records : List (Lifelog × Bool)) :
    ∀ m c : Nat, (processLoop records m c).1 = (successTimestamps records).foldl max m := by
  induction records with
  | nil =>
      intro m c
      simp [processLoop, successTimestamps]
  | cons p rest ih =>
      intro m c
      obtain ⟨l, ok⟩ := p
      rw [successTimestamps_cons]
      cases ok with
      | false => simpa [processLoop] using ih m c
      | true =>
          cases h : effectiveTimestamp l with
          | none => simpa [processLoop, h] using ih m (c + 1)
          | some t =>
              have hmax : (if m < t then t else m) = max m t := by
                rcases Nat.lt_or_ge m t with hlt | hge
                · simp [hlt, Nat.max_eq_right (le_of_lt hlt)]
                · simp [Nat.not_lt.mpr hge, Nat.max_eq_left hge]
              simp only [processLoop, h, if_true, hmax]
              rw [ih (max m t) (c + 1)]
              simp

/-- The final `processedCount` of the loop counts the successful writes. -/
theorem processLoop_snd (records : List (Lifelog × Bool)) :
    ∀ m c : Nat,
      (processLoop records m c).2 = c + (records.filter (fun p => p.2)).length := by
  induction records with
  | nil => intro m c; simp [processLoop]
  | cons p rest ih =>
      intro m c
      obtain ⟨l, ok⟩ := p
      cases ok with
      | false => simp [processLoop, List.filter_cons, ih]
      | true =>
          cases h : effectiveTimestamp l <;>
            simp [processLoop, List.filter_cons, h, ih] <;> omega

/-- The loop never lowers `maxTimestamp` below its initial value. -/
theorem processLoop_le_init (records : List (Lifelog × Bool)) (m c : Nat) :
    m ≤ (processLoop records m c).1 := by
  rw [processLoop_fst]
  exact le_foldl_max _ m

/-- A state file the load step hands back records at most the loaded value:
the load either returns the stored watermark unchanged, or initializes the
file to the returned value, or leaves a watermark-less file alone. -/
theorem load_state_watermark (st : StateFile) (now w : Nat) (st1 : StateFile)
    (h : loadLastSeenTime st now = .ok (w, st1)) :
    ∀ v, stateWatermark st1 = some v → v = w := by
  cases st with
  | missing =>
      simp [loadLastSeenTime, saveLastSeenTime] at h
      obtain ⟨hw, hst⟩ := h
      subst hw; subst hst
      intro v hv
      simp [stateWatermark] at hv
      exact hv.symm
  | unreadable => simp [loadLastSeenTime] at h
  | malformed => simp [loadLastSeenTime] at h
  | parsed t? =>
      cases t? with
      | none =>
          simp [loadLastSeenTime] at h
          obtain ⟨hw, hst⟩ := h
          subst hw; subst hst
          intro v hv
          simp [stateWatermark] at hv
      | some t =>
          simp [loadLastSeenTime] at h
          obtain ⟨hw, hst⟩ := h
          subst hw; subst hst
          intro v hv
          simp [stateWatermark] at hv
          exact hv.symm

/-- Unfolding of a cycle on a non-empty batch, once the load step is known. -/
theorem processNewLifelogs_ok_of_ne (st : StateFile) (now w : Nat)
    (st1 : StateFile) (h : loadLastSeenTime st now = .ok (w, st1))
    (records : List (Lifelog × Bool)) (hne : records ≠ []) :
    processNewLifelogs st now (.ok records) =
      if 0 < (processLoop records w 0).2 then
        ⟨some w, some (processLoop records w 0).1, false,
          saveLastSeenTime (processLoop records w 0).1 st1, records.map Prod.fst⟩
      else ⟨some w, none, true, st1, records.map Prod.fst⟩ := by
  have hempty : records.isEmpty = false := by
    cases records with
    | nil => exact absurd rfl hne
    | cons p rest => rfl
  unfold processNewLifelogs
  rw [h]
  simp only [hempty, Bool.false_eq_true, if_false]

/-- A cycle started on a state file that records a watermark leaves behind a
state file recording a watermark at least as large. -/
theorem cycle_state_mono (st : StateFile) (now : Nat)
    (fr : Except Unit (List (Lifelog × Bool))) (t : Nat)
    (h : stateWatermark st = some t) :
    ∃ v, stateWatermark (processNewLifelogs st now fr).finalState = some v ∧
      t ≤ v := by
  cases st with
  | missing => simp [stateWatermark] at h
  | unreadable => simp [stateWatermark] at h
  | malformed => simp [stateWatermark] at h
  | parsed t? =>
      cases t? with
      | none => simp [stateWatermark] at h
      | some t' =>
          have ht : t' = t := by simpa [stateWatermark] using h
          subst ht
          have hload : loadLastSeenTime (StateFile.parsed (some t')) now =
              .ok (t', StateFile.parsed (some t')) := rfl
          cases fr with
          | error e =>
              exact ⟨t', by simp [processNewLifelogs, hload, stateWatermark],
                le_refl t'⟩
          | ok records =>
              by_cases hne : records = []
              · subst hne
                exact ⟨t', by simp [processNewLifelogs, hload, stateWatermark],
                  le_refl t'⟩
              · rw [processNewLifelogs_ok_of_ne _ _ _ _ hload _ hne]
                by_cases hc : 0 < (processLoop records t' 0).2
                · refine ⟨(processLoop records t' 0).1, ?_,
                    processLoop_le_init records t' 0⟩
                  simp [hc, saveLastSeenTime, stateWatermark]
                · refine ⟨t', ?_, le_refl t'⟩
                  simp [hc, stateWatermark]

/-- Within one cycle, any saved watermark and any watermark left in the state
file dominate the watermark the cycle loaded. -/
theorem cycle_loaded_le (st : StateFile) (now : Nat)
    (fr : Except Unit (List (Lifelog × Bool))) (w : Nat)
    (h : (processNewLifelogs st now fr).loaded = some w) :
    (∀ s, (processNewLifelogs st now fr).saved = some s → w ≤ s) ∧
    (∀ v, stateWatermark (processNewLifelogs st now fr).finalState = some v →
      w ≤ v) := by
  cases hl : loadLastSeenTime st now with
  | error e => simp [processNewLifelogs, hl] at h
  | ok p =>
      obtain ⟨w', st1⟩ := p
      have hw : w' = w := by
        cases fr with
        | error e => simpa [processNewLifelogs, hl] using h
        | ok records =>
            by_cases hne : records = []
            · subst hne; simpa [processNewLifelogs, hl] using h
            · rw [processNewLifelogs_ok_of_ne _ _ _ _ hl _ hne] at h
              by_cases hc : 0 < (processLoop records w' 0).2 <;>
                simpa [hc] using h
      subst hw
      cases fr with
      | error e =>
          constructor
          · intro s hs
            simp [processNewLifelogs, hl] at hs
          · intro v hv
            simp only [processNewLifelogs, hl] at hv
            exact le_of_eq (load_state_watermark st now w' st1 hl v hv).symm
      | ok records =>
          by_cases hne : records = []
          · subst hne
            constructor
            · intro s hs
              simp [processNewLifelogs, hl] at hs
            · intro v hv
              simp only [processNewLifelogs, hl] at hv
              exact le_of_eq (load_state_watermark st now w' st1 hl v hv).symm
          · rw [processNewLifelogs_ok_of_ne _ _ _ _ hl _ hne]
            by_cases hc : 0 < (processLoop records w' 0).2
            · constructor
              · intro s hs
                simp only [hc, if_true] at hs
                have : (processLoop records w' 0).1 = s := by simpa using hs
                exact this ▸ processLoop_le_init records w' 0
              · intro v hv
                simp only [hc, if_true, saveLastSeenTime, stateWatermark] at hv
                have : (processLoop records w' 0).1 = v := by simpa using hv
                exact this ▸ processLoop_le_init records w' 0
            · constructor
              · intro s hs
                simp [hc] at hs
              · intro v hv
                simp only [hc, if_false] at hv
                exact le_of_eq (load_state_watermark st now w' st1 hl v hv).symm

/-- Monotonicity of the recorded watermark along any sequence of cycles. -/
theorem runCycles_mono
    (cycles : List (Nat × Except Unit (List (Lifelog × Bool)))) :
    ∀ (st : StateFile) (t : Nat), stateWatermark st = some t →
      ∃ v, stateWatermark (runCycles st cycles) = some v ∧ t ≤ v := by
  induction cycles with
  | nil => exact fun st t h => ⟨t, h, le_refl t⟩
  | cons c rest ih =>
      intro st t h
      obtain ⟨now, fr⟩ := c
      obtain ⟨v, hv, htv⟩ := cycle_state_mono st now fr t h
      obtain ⟨v2, hv2, hvv2⟩ := ih _ v hv
      exact ⟨v2, hv2, le_trans htv hvv2⟩

/-! ## Claim theorems -/

/-- C6: the watermark load operation initializes on file-not-found — it
persists the current time and returns it, treating `ENOENT` as the
initialization trigger rather than an error — while every other
storage-layer I/O or parse error during the load propagates to the caller. -/
theorem C6_load_initializes_on_missing_and_propagates_other_errors
    (now : Nat) :
    loadLastSeenTime StateFile.missing now =
      .ok (now, saveLastSeenTime now StateFile.missing) ∧
    saveLastSeenTime now StateFile.missing = StateFile.parsed (some now) ∧
    loadLastSeenTime StateFile.unreadable now = .error LoadError.ioError ∧
    loadLastSeenTime StateFile.malformed now = .error LoadError.parseError :=
  ⟨rfl, rfl, rfl, rfl⟩

/-- C10: when the state file parses but its `lastSeenTime` field is absent or
falsy, the load returns the current wall-clock time, leaves the stored state
unchanged (nothing is persisted), and two consecutive loads in that state can
return different values. -/
theorem C10_falsy_watermark_read_is_unstable :
    (∀ now : Nat, loadLastSeenTime (StateFile.parsed none) now =
      .ok (now, StateFile.parsed none)) ∧
    ∃ n1 n2 : Nat,
      loadLastSeenTime (StateFile.parsed none) n1 ≠
        loadLastSeenTime (StateFile.parsed none) n2 := by
  refine ⟨fun now => rfl, 0, 1, fun h => ?_⟩
  simp [loadLastSeenTime] at h

/-- C8: when the source fetch fails, the cycle returns normally with the
watermark untouched — no save is issued, the state file stays exactly as the
load step left it (so the next cycle retries from the same watermark), and
the failure is absorbed rather than propagated. -/
theorem C8_fetch_failure_skips_cycle_without_saving
    (st : StateFile) (now w : Nat) (st1 : StateFile)
    (hload : loadLastSeenTime st now = .ok (w, st1)) :
    processNewLifelogs st now (.error ()) = ⟨some w, none, false, st1, []⟩ := by
  unfold processNewLifelogs
  rw [hload]

theorem C8_witness :
    processNewLifelogs (StateFile.parsed (some 5)) 100 (.error ()) =
      ⟨some 5, none, false, StateFile.parsed (some 5), []⟩ :=
  C8_fetch_failure_skips_cycle_without_saving
    (StateFile.parsed (some 5)) 100 5 (StateFile.parsed (some 5)) rfl

/-- C3: the schema-cache getter returns the cached snapshot without a live
fetch whenever its age is strictly below 3600000 ms; a cache that is at
least that old, or absent/unreadable/unparsable (all modelled by `none`),
triggers a live fetch whose successful result is persisted with a fresh
timestamp and returned — so cache corruption or absence alone is never
fatal, a failure arising only from the live fetch itself. -/
theorem C3_schema_cache_freshness (cache : SchemaCache) (now : Nat)
    (live : Except Unit Schema) :
    (∀ schema ts, cache = some (schema, ts) → now - ts < 3600000 →
      fetchNotionDatabaseSchema cache now live = ⟨.ok schema, false, cache⟩) ∧
    (∀ schema ts, cache = some (schema, ts) → 3600000 ≤ now - ts →
      (fetchNotionDatabaseSchema cache now live).fetchedLive = true ∧
      ∀ s, live = .ok s →
        fetchNotionDatabaseSchema cache now live = ⟨.ok s, true, some (s, now)⟩) ∧
    (cache = none →
      (fetchNotionDatabaseSchema cache now live).fetchedLive = true ∧
      ∀ s, live = .ok s →
        fetchNotionDatabaseSchema cache now live = ⟨.ok s, true, some (s, now)⟩) := by
  refine ⟨?_, ?_, ?_⟩
  · intro schema ts hc hfresh
    subst hc
    simp [fetchNotionDatabaseSchema, hfresh]
  · intro schema ts hc hstale
    subst hc
    have hcond : ¬ (now - ts < 3600000) := Nat.not_lt.mpr hstale
    constructor
    · cases live <;> simp [fetchNotionDatabaseSchema, hcond]
    · intro s hs
      subst hs
      simp [fetchNotionDatabaseSchema, hcond]
  · intro hc
    subst hc
    constructor
    · cases live <;> simp [fetchNotionDatabaseSchema]
    · intro s hs
      subst hs
      simp [fetchNotionDatabaseSchema]

theorem C3_witness :
    fetchNotionDatabaseSchema (some ([("Name", PropType.title)], 50)) 100
        (.error ()) =
      ⟨.ok [("Name", PropType.title)], false,
        some ([("Name", PropType.title)], 50)⟩ ∧
    fetchNotionDatabaseSchema (some ([("Name", PropType.title)], 50)) 4000000
        (.ok []) = ⟨.ok [], true, some ([], 4000000)⟩ ∧
    fetchNotionDatabaseSchema none 7 (.ok [("Name", PropType.title)]) =
      ⟨.ok [("Name", PropType.title)], true,
        some ([("Name", PropType.title)], 7)⟩ :=
  ⟨(C3_schema_cache_freshness _ 100 _).1 _ 50 rfl (by decide),
   ((C3_schema_cache_freshness _ 4000000 _).2.1 _ 50 rfl (by decide)).2 _ rfl,
   ((C3_schema_cache_freshness _ 7 _).2.2 rfl).2 _ rfl⟩

/-- C9: one process run invokes the schema-cache getter exactly once, at
startup, and every polling cycle of the run — however many there are —
receives that single startup snapshot, so the freshness window can only
matter across process restarts and a running process never observes a schema
change. -/
theorem C9_schema_fetched_once_per_run (cache : SchemaCache) (now : Nat)
    (live : Except Unit Schema) (numCycles : Nat) :
    (startPolling cache now live numCycles).schemaFetchCount = 1 ∧
    (∀ schema, (fetchNotionDatabaseSchema cache now live).result = .ok schema →
      (startPolling cache now live numCycles).cycleSchemas =
        List.replicate (1 + numCycles) schema) := by
  constructor
  · unfold startPolling
    cases (fetchNotionDatabaseSchema cache now live).result <;> rfl
  · intro schema hs
    unfold startPolling
    rw [hs]

/-- C1: on a non-empty fetched batch, every record is attempted regardless of
other records' failures (per-record isolation); when at least one write
succeeds, the persisted watermark is exactly the maximum of the loaded
watermark and the effective timestamps of the successfully written records
only (`List.foldl max w` over `successTimestamps`); when no write succeeds,
nothing is saved, the state file is untouched and the warning fires. -/
theorem C1_isolation_and_watermark_of_successes
    (st : StateFile) (now w : Nat) (st1 : StateFile)
    (records : List (Lifelog × Bool))
    (hload : loadLastSeenTime st now = .ok (w, st1))
    (hne : records ≠ []) :
    (processNewLifelogs st now (.ok records)).attempted =
      records.map Prod.fst ∧
    ((∃ p ∈ records, p.2 = true) →
      (processNewLifelogs st now (.ok records)).saved =
        some ((successTimestamps records).foldl max w) ∧
      (processNewLifelogs st now (.ok records)).finalState =
        StateFile.parsed (some ((successTimestamps records).foldl max w))) ∧
    ((∀ p ∈ records, p.2 = false) →
      (processNewLifelogs st now (.ok records)).saved = none ∧
      (processNewLifelogs st now (.ok records)).warned = true ∧
      (processNewLifelogs st now (.ok records)).finalState = st1) := by
  rw [processNewLifelogs_ok_of_ne st now w st1 hload records hne]
  have hcount : (processLoop records w 0).2 =
      (records.filter (fun p => p.2)).length := by
    simpa using processLoop_snd records w 0
  refine ⟨?_, ?_, ?_⟩
  · by_cases hc : 0 < (processLoop records w 0).2 <;> simp [hc]
  · rintro ⟨p, hp, hpt⟩
    have hmem : p ∈ records.filter (fun q => q.2) :=
      List.mem_filter.mpr ⟨hp, hpt⟩
    have hc : 0 < (processLoop records w 0).2 := by
      rw [hcount]
      exact List.length_pos.mpr (List.ne_nil_of_mem hmem)
    simp [hc, saveLastSeenTime, processLoop_fst records w 0]
  · intro hall
    have hc : ¬ 0 < (processLoop records w 0).2 := by
      rw [hcount]
      intro hpos
      obtain ⟨p, hp⟩ := List.exists_mem_of_length_pos hpos
      have hmem := List.mem_filter.mp hp
      exact absurd hmem.2 (by simp [hall p hmem.1])
    simp [hc]

theorem C1_witness :
    (processNewLifelogs (StateFile.parsed (some 5)) 100
        (.ok [(⟨none, none, none, none, some 10, none, none⟩, true),
              (⟨none, none, none, none, some 20, none, none⟩, false)])).attempted
      = [⟨none, none, none, none, some 10, none, none⟩,
         ⟨none, none, none, none, some 20, none, none⟩] ∧
    (processNewLifelogs (StateFile.parsed (some 5)) 100
        (.ok [(⟨none, none, none, none, some 10, none, none⟩, true),
              (⟨none, none, none, none, some 20, none, none⟩, false)])).saved
      = some 10 := by
  have h := C1_isolation_and_watermark_of_successes
    (StateFile.parsed (some 5)) 100 5 (StateFile.parsed (some 5))
    [(⟨none, none, none, none, some 10, none, none⟩, true),
     (⟨none, none, none, none, some 20, none, none⟩, false)]
    rfl (by decide)
  refine ⟨h.1, ?_⟩
  have hs := (h.2.1 ⟨(⟨none, none, none, none, some 10, none, none⟩, true),
    by decide, rfl⟩).1
  exact hs.trans (by decide)

/-- C2: the persisted watermark never decreases — within any single cycle,
any timestamp the cycle saves and any watermark its final state file records
dominate the watermark the cycle loaded; and across any sequence of cycles,
the watermark recorded after running them all dominates the one recorded
before. -/
theorem C2_watermark_monotone :
    (∀ (st : StateFile) (now : Nat)
        (fr : Except Unit (List (Lifelog × Bool))) (w : Nat),
      (processNewLifelogs st now fr).loaded = some w →
      (∀ s, (processNewLifelogs st now fr).saved = some s → w ≤ s) ∧
      (∀ v, stateWatermark (processNewLifelogs st now fr).finalState = some v →
        w ≤ v)) ∧
    (∀ (st : StateFile)
        (cycles : List (Nat × Except Unit (List (Lifelog × Bool)))) (t v : Nat),
      stateWatermark st = some t →
      stateWatermark (runCycles st cycles) = some v → t ≤ v) := by
  refine ⟨cycle_loaded_le, ?_⟩
  intro st cycles t v ht hv
  obtain ⟨v', hv', htv'⟩ := runCycles_mono cycles st t ht
  rw [hv] at hv'
  have := Option.some_inj.mp hv'
  omega

theorem C2_witness : 5 ≤ 10 :=
  C2_watermark_monotone.2 (StateFile.parsed (some 5))
    [(100, .ok [(⟨none, none, none, none, some 10, none, none⟩, true)])]
    5 10 rfl (by decide)

/-- C7: a record with no effective timestamp (`updatedAt`, `endTime` and
`startTime` all absent) is still submitted for mapping and writing within the
cycle, yet its presence never changes the `maxTimestamp` the loop computes —
it is excluded from the max-timestamp computation whatever its write
outcome. -/
theorem C7_timestampless_record_attempted_but_excluded
    (l : Lifelog) (hts : effectiveTimestamp l = none) (ok : Bool)
    (st : StateFile) (now w : Nat) (st1 : StateFile)
    (pre post : List (Lifelog × Bool))
    (hload : loadLastSeenTime st now = .ok (w, st1)) :
    l ∈ (processNewLifelogs st now (.ok (pre ++ (l, ok) :: post))).attempted ∧
    (processLoop (pre ++ (l, ok) :: post) w 0).1 =
      (processLoop (pre ++ post) w 0).1 := by
  have hne : pre ++ (l, ok) :: post ≠ [] := by simp
  constructor
  · rw [processNewLifelogs_ok_of_ne st now w st1 hload _ hne]
    by_cases hc : 0 < (processLoop (pre ++ (l, ok) :: post) w 0).2 <;>
      simp [hc]
  · rw [processLoop_fst, processLoop_fst, successTimestamps_append,
      successTimestamps_append, successTimestamps_cons, hts]
    cases ok <;> simp

theorem C7_witness :
    (⟨some "no-ts", some "T", none, none, none, none, none⟩ : Lifelog) ∈
      (processNewLifelogs (StateFile.parsed (some 5)) 100
        (.ok [(⟨some "no-ts", some "T", none, none, none, none, none⟩, true),
              (⟨none, none, none, none, some 10, none, none⟩, true)])).attempted ∧
    (processLoop [(⟨some "no-ts", some "T", none, none, none, none, none⟩, true),
        (⟨none, none, none, none, some 10, none, none⟩, true)] 5 0).1 =
      (processLoop [(⟨none, none, none, none, some 10, none, none⟩, true)] 5 0).1 :=
  C7_timestampless_record_attempted_but_excluded
    ⟨some "no-ts", some "T", none, none, none, none, none⟩ rfl true
    (StateFile.parsed (some 5)) 100 5 (StateFile.parsed (some 5))
    [] [(⟨none, none, none, none, some 10, none, none⟩, true)] rfl

theorem C9_witness :
    (startPolling none 0 (.ok [("Name", PropType.title)]) 2).schemaFetchCount
        = 1 ∧
    (startPolling none 0 (.ok [("Name", PropType.title)]) 2).cycleSchemas =
      List.replicate 3 [("Name", PropType.title)] :=
  ⟨(C9_schema_fetched_once_per_run none 0 (.ok [("Name", PropType.title)]) 2).1,
   (C9_schema_fetched_once_per_run none 0 (.ok [("Name", PropType.title)]) 2).2
     _ rfl⟩

/-- C5 counterexample: the claim says any unrecognized shape — non-object
responses included — gets a one-time diagnostic log.  But the non-object
branch of `fetchStarredLifelogs` (src/index.js:139-141) warns unconditionally
and never sets the process-wide flag: after a first string response has
already warned, an identical second response warns again, so the diagnostic
is not one-time. -/
theorem C5_counterexample :
    (normalizeLifelogs false (Json.str "oops")).warned = true ∧
    (normalizeLifelogs false (Json.str "oops")).warnShown = false ∧
    (normalizeLifelogs (normalizeLifelogs false (Json.str "oops")).warnShown
      (Json.str "oops")).warned = true :=
  ⟨rfl, rfl, rfl⟩

/-- C5 (amended): normalization returns a bare array as is; for each of the
shapes `{lifelogs:[...]}`, `{data:{lifelogs:[...]}}`, `{data:[...]}`,
`{results:[...]}`, `{items:[...]}` it returns the contained array; an object
matching none of the shapes yields the empty sequence plus a diagnostic
emitted at most once per process (guarded by the warn-shown flag); a
non-object response yields the empty sequence plus a diagnostic on every
occurrence. -/
theorem C5_response_shape_normalization (ws : Bool) (xs : List Json) :
    normalizeLifelogs ws (.arr xs) = ⟨xs, ws, false⟩ ∧
    normalizeLifelogs ws (.obj [("lifelogs", .arr xs)]) = ⟨xs, ws, false⟩ ∧
    normalizeLifelogs ws (.obj [("data", .obj [("lifelogs", .arr xs)])]) =
      ⟨xs, ws, false⟩ ∧
    normalizeLifelogs ws (.obj [("data", .arr xs)]) = ⟨xs, ws, false⟩ ∧
    normalizeLifelogs ws (.obj [("results", .arr xs)]) = ⟨xs, ws, false⟩ ∧
    normalizeLifelogs ws (.obj [("items", .arr xs)]) = ⟨xs, ws, false⟩ ∧
    (∀ fields, recognizedShape (.obj fields) = none →
      normalizeLifelogs ws (.obj fields) = ⟨[], true, !ws⟩) ∧
    (∀ j, isObjOrArr j = false → normalizeLifelogs ws j = ⟨[], ws, true⟩) := by
  refine ⟨rfl, rfl, rfl, rfl, rfl, rfl, ?_, ?_⟩
  · intro fields h
    simp [normalizeLifelogs, h]
  · intro j hj
    cases j <;> first | rfl | simp [isObjOrArr] at hj

theorem C5_witness :
    normalizeLifelogs false (Json.obj [("data", Json.arr [Json.null])]) =
      ⟨[Json.null], false, false⟩ ∧
    normalizeLifelogs false (Json.obj [("foo", Json.null)]) =
      ⟨[], true, true⟩ ∧
    normalizeLifelogs true (Json.obj [("foo", Json.null)]) =
      ⟨[], true, false⟩ ∧
    normalizeLifelogs true (Json.num 3) = ⟨[], true, true⟩ :=
  ⟨(C5_response_shape_normalization false [Json.null]).2.2.2.1,
   (C5_response_shape_normalization false []).2.2.2.2.2.2.1 _ rfl,
   (C5_response_shape_normalization true []).2.2.2.2.2.2.1 _ rfl,
   (C5_response_shape_normalization true []).2.2.2.2.2.2.2 _ rfl⟩

/-- C4 counterexample: the claim says the fallback sets a title-role property
*of the schema*.  But the fallback of `createNotionPage` (src/index.js:300)
hard-codes the property name `"Title"`: for a schema whose title property is
named `"Name"`, none of the produced property names is a title-typed schema
property. -/
theorem C4_counterexample :
    ¬ ∃ p ∈ createNotionPageProperties (.error "mapper failed")
        ⟨none, some "X", some "hello", none, none, none, none⟩
        [("Name", PropType.title), ("Notes", PropType.rich_text)],
      (p.1, PropType.title) ∈
        [("Name", PropType.title), ("Notes", PropType.rich_text)] := by
  decide

/-- C4 (amended): whenever the primary mapping raises, the fallback is used,
and it produces exactly: a property under the fixed name `"Title"` holding a
title value with the record's title, or the placeholder `"Untitled"` when the
title is absent; plus, when the record carries body content and the schema
has a property of type `rich_text`, the first such property set to the body
content (in the edge case where that property is itself named `"Title"`, the
assignment overwrites the title entry); and no other properties. -/
theorem C4_fallback_mapping (primary : Except String Props) (e : String)
    (hp : primary = .error e) (l : Lifelog) (schema : Schema) :
    createNotionPageProperties primary l schema =
      match bodyContent l, schema.find? (fun p => p.2 == PropType.rich_text) with
      | some body, some (k, _) =>
          if k = "Title" then [("Title", .richTextVal body)]
          else [("Title", .titleVal (l.title.getD "Untitled")),
                (k, .richTextVal body)]
      | _, _ => [("Title", .titleVal (l.title.getD "Untitled"))] := by
  subst hp
  show fallbackProperties l schema = _
  unfold fallbackProperties
  cases hb : bodyContent l with
  | none => rfl
  | some body =>
      cases hf : schema.find? (fun p => p.2 == PropType.rich_text) with
      | none => rfl
      | some kv =>
          obtain ⟨k, ty⟩ := kv
          by_cases hk : k = "Title"
          · subst hk
            simp [setProp]
          · simp [setProp, hk, Ne.symm hk]

theorem C4_witness :
    createNotionPageProperties (.error "mapper failed")
      ⟨none, some "X", some "hello", none, none, none, none⟩
      [("Notes", PropType.rich_text)] =
    [("Title", PropValue.titleVal "X"),
     ("Notes", PropValue.richTextVal "hello")] :=
  (C4_fallback_mapping (.error "mapper failed") "mapper failed" rfl
    ⟨none, some "X", some "hello", none, none, none, none⟩
    [("Notes", PropType.rich_text)]).trans (by decide)

end LimitlessNotion
